import Mathlib

/-!
Verification of the peer connection establishment and transfer orchestration
core of the rain client, shallowly embedded from
src/internal/peermanager/dialer/dialer.go and
src/internal/peermanager/acceptor/handler/handler.go.
-/

namespace Rain

/-! ## Outbound dialer run loop (dialer.go, Dialer.Run)

The Go code is

  const maxDial = 40
  limiter: make(chan struct\x7b\x7d, maxDial)
  for \x7b
    select \x7b
    case d.limiter <- struct\x7b\x7d\x7b\x7d:        -- acquire a slot (outer select)
      select \x7b
      case addr := <-d.peerList.Get():     -- inner select: got an address
        h := handler.New(...)
        d.workers.StartWithOnFinishHandler(h, func() \x7b <-d.limiter \x7d)
      case <-stopC:
        d.workers.Stop()
        return
      \x7d
    case <-stopC:
      d.workers.Stop()
      return
    \x7d
  \x7d

We model it as a labelled transition system.  The state records where the
loop is (outer select, about to try an acquire, or inner select, holding a
freshly acquired slot), the occupancy of the limiter channel
(acquired-minus-released count), the number of running dial workers, and
whether the loop has observed the stop signal and returned.  A worker
finishing fires its on-finish callback, which receives one token from the
limiter; worker finishes interleave with the loop and keep happening after
the loop returns (workers.Stop stops and waits for outstanding workers,
each still running its on-finish handler).
-/

def maxDial : Nat := 40

inductive DialPos where
  | outer : DialPos
  | inner : DialPos
deriving DecidableEq, Repr

structure DialState where
  pos : DialPos
  slots : Nat
  workers : Nat
  stopped : Bool
deriving DecidableEq, Repr

inductive DialEvent where
  | acquire : DialEvent
  | recvAddr : DialEvent
  | stop : DialEvent
  | workerFinish : DialEvent
deriving DecidableEq, Repr

/-- One step of the dialer transition system; `none` means the event is not
enabled in this state (the corresponding channel operation would block or
the loop has already returned). -/
def dialStep (s : DialState) (e : DialEvent) : Option DialState :=
  match e with
  | .acquire =>
      if s.stopped = false ∧ s.pos = .outer ∧ s.slots < maxDial then
        some { s with pos := .inner, slots := s.slots + 1 }
      else none
  | .recvAddr =>
      if s.stopped = false ∧ s.pos = .inner then
        some { s with pos := .outer, workers := s.workers + 1 }
      else none
  | .stop =>
      if s.stopped = false then some { s with stopped := true } else none
  | .workerFinish =>
      if 0 < s.workers then
        some { s with workers := s.workers - 1, slots := s.slots - 1 }
      else none

def dialInit : DialState := { pos := .outer, slots := 0, workers := 0, stopped := false }

/-- Run the dialer transition system over a trace of events, failing if some
event in the trace is not enabled. -/
def dialRun : DialState → List DialEvent → Option DialState
  | s, [] => some s
  | s, e :: es =>
      match dialStep s e with
      | none => none
      | some s' => dialRun s' es

/-- The accounting invariant of the dialer: every held limiter slot is either
held by a running worker, or is the single slot acquired by the outer select
while the loop sits at the inner select. -/
def DialInv (s : DialState) : Prop :=
  s.slots = s.workers + (if s.pos = .inner then 1 else 0) ∧ s.slots ≤ maxDial

theorem dialStep_inv {s s' : DialState} {e : DialEvent}
    (hinv : DialInv s) (h : dialStep s e = some s') : DialInv s' := by
  obtain ⟨hacc, hle⟩ := hinv
  cases e <;> simp only [dialStep] at h
  · split at h
    · rename_i hc
      obtain ⟨hstop, hpos, hlt⟩ := hc
      cases h
      constructor
      · simp [hpos] at hacc
        simp [hacc]
      · simpa using hlt
    · exact absurd h (by simp)
  · split at h
    · rename_i hc
      obtain ⟨hstop, hpos⟩ := hc
      cases h
      constructor
      · simp [hpos] at hacc
        simp [hacc, Nat.add_comm, Nat.add_assoc]
      · simpa using hle
    · exact absurd h (by simp)
  · split at h
    · cases h
      exact ⟨hacc, hle⟩
    · exact absurd h (by simp)
  · split at h
    · rename_i hw
      cases h
      constructor
      · simp only
        omega
      · simp only
        omega
    · exact absurd h (by simp)

theorem dialRun_inv {s s' : DialState} {tr : List DialEvent}
    (hinv : DialInv s) (h : dialRun s tr = some s') : DialInv s' := by
  induction tr generalizing s with
  | nil => simp [dialRun] at h; cases h; exact hinv
  | cons e es ih =>
      simp only [dialRun] at h
      cases hstep : dialStep s e with
      | none => rw [hstep] at h; cases h
      | some s1 =>
          rw [hstep] at h
          exact ih (dialStep_inv hinv hstep) h

theorem dialInit_inv : DialInv dialInit := by
  constructor <;> simp [dialInit, maxDial]

/-- C1: For every execution of the Outbound Dialer run loop, the number of
in-flight dial attempts (limiter slots acquired and not yet released) is at
all times between 0 and 40 inclusive, and consequently never more than 40
dial workers run concurrently, however long the candidate address list is. -/
theorem dialer_slots_bounded (tr : List DialEvent) (s : DialState)
    (h : dialRun dialInit tr = some s) :
    0 ≤ s.slots ∧ s.slots ≤ maxDial ∧ s.workers ≤ maxDial := by
  have hinv := dialRun_inv dialInit_inv h
  obtain ⟨hacc, hle⟩ := hinv
  refine ⟨Nat.zero_le _, hle, ?_⟩
  omega

theorem dialer_slots_bounded_witness :
    dialRun dialInit [DialEvent.acquire, DialEvent.recvAddr, DialEvent.acquire,
        DialEvent.workerFinish] =
      some { pos := .inner, slots := 1, workers := 0, stopped := false } ∧
    0 ≤ (1 : Nat) ∧ 1 ≤ maxDial ∧ 0 ≤ maxDial := by
  refine ⟨by decide, ?_⟩
  exact dialer_slots_bounded
    [DialEvent.acquire, DialEvent.recvAddr, DialEvent.acquire, DialEvent.workerFinish]
    { pos := .inner, slots := 1, workers := 0, stopped := false } (by decide)

/-- C2, counterexample: the trace in which the loop acquires a slot at the
outer select and then observes the stop signal at the inner select ends with
the loop returned, no workers running, and one acquired slot that is never
released: no event is enabled in the final state, so the slot count stays 1
forever. -/
theorem dialer_inner_stop_leaks_slot :
    dialRun dialInit [DialEvent.acquire, DialEvent.stop] =
      some { pos := .inner, slots := 1, workers := 0, stopped := true } ∧
    ({ pos := .inner, slots := 1, workers := 0, stopped := true } : DialState).slots = 1 ∧
    dialStep { pos := .inner, slots := 1, workers := 0, stopped := true } DialEvent.acquire = none ∧
    dialStep { pos := .inner, slots := 1, workers := 0, stopped := true } DialEvent.recvAddr = none ∧
    dialStep { pos := .inner, slots := 1, workers := 0, stopped := true } DialEvent.stop = none ∧
    dialStep { pos := .inner, slots := 1, workers := 0, stopped := true } DialEvent.workerFinish = none := by
  refine ⟨by decide, by decide, by decide, by decide, by decide, by decide⟩

/-- C2, amended: every limiter slot paired with a spawned worker is released
exactly once, by that worker finishing; at any time the acquired-not-released
count equals the number of running workers, plus one exactly when the loop
holds a freshly acquired slot at the inner select.  In particular, once the
loop has returned and all workers have finished, no slot remains unreleased
when the stop signal was observed at the outer select, but exactly one
acquired slot remains unreleased when it was observed at the inner select. -/
theorem dialer_slot_accounting (tr : List DialEvent) (s : DialState)
    (h : dialRun dialInit tr = some s) :
    s.slots = s.workers + (if s.pos = .inner then 1 else 0) ∧
    (s.stopped = true → s.workers = 0 →
      s.slots = (if s.pos = .inner then 1 else 0)) := by
  have hinv := dialRun_inv dialInit_inv h
  obtain ⟨hacc, _⟩ := hinv
  refine ⟨hacc, ?_⟩
  intro _ hw
  rw [hacc, hw, Nat.zero_add]

theorem dialer_slot_accounting_witness :
    dialRun dialInit [DialEvent.acquire, DialEvent.recvAddr, DialEvent.stop,
        DialEvent.workerFinish] =
      some { pos := .outer, slots := 0, workers := 0, stopped := true } ∧
    (0 : Nat) = 0 + (if (DialPos.outer : DialPos) = .inner then 1 else 0) := by
  refine ⟨by decide, ?_⟩
  exact (dialer_slot_accounting
    [DialEvent.acquire, DialEvent.recvAddr, DialEvent.stop, DialEvent.workerFinish]
    { pos := .outer, slots := 0, workers := 0, stopped := true } (by decide)).1

/-! ## Inbound connection handler (handler.go, Handler.Run)

Handler.Run performs: btconn.Accept with the hardcoded
encryptionForceIncoming := false flag and a local extension bitfield with
only bit 61 (Fast Extension) set; on handshake error it closes the socket
and returns; it then calls peerIDs.Add(peerID), closing the socket and
returning if that yields false; otherwise it defers peerIDs.Remove(peerID),
computes the effective extension mask as ourbf.And(peerbf) and runs a peer
session synchronously, so Remove fires exactly once when the session exits.
-/

/-- Peer identifiers are 20-byte values in the source; we model them as a
type with decidable equality, concretely lists of bytes. -/
abbrev PeerID := List Nat

/-- Modelled from the spec: the Capability Bitset (internal/bitfield, not
under src/) is a fixed-width bit vector supporting set, test, AND,
cardinality and all-bits-set; we represent a 64-bit extension mask as a
natural number whose binary digits are the bits. -/
abbrev ExtMask := Nat

def ExtMask.set (m : ExtMask) (i : Nat) : ExtMask := m ||| 2 ^ i

def ExtMask.and (a b : ExtMask) : ExtMask := a &&& b

def ExtMask.test (m : ExtMask) (i : Nat) : Bool := Nat.testBit m i

/-- handler.go lines 43-45: ourExtensions starts as the zero 8-byte array
and bit 61 (Fast Extension) is set. -/
def ourExtensions : ExtMask := ExtMask.set 0 61

/-- Modelled from the spec: the Peer Identity Registry
(internal/peermanager/peerids, not under src/) is a mutex-guarded set of
peer identifiers with atomic add-if-absent and idempotent remove. -/
abbrev PeerIDs := List PeerID

/-- Modelled from the spec: add returns false and leaves the registry
unchanged when the identifier is already present, otherwise inserts it and
returns true. -/
def PeerIDs.add (r : PeerIDs) (id : PeerID) : Bool × PeerIDs :=
  if id ∈ r then (false, r) else (true, id :: r)

/-- Modelled from the spec: remove deletes the identifier; removing an
absent key is a no-op. -/
def PeerIDs.remove (r : PeerIDs) (id : PeerID) : PeerIDs :=
  r.filter (fun x => x ≠ id)

inductive HandshakeError where
  | policyViolation : HandshakeError
  | unauthorizedInfoHash : HandshakeError
  | malformed : HandshakeError
deriving DecidableEq, Repr

/-- The observable behaviour of one inbound connection, as seen by
btconn.Accept: whether the remote side attempts plain (unencrypted)
framing, whether the content identifier it presents validates against the
swarm being served, whether the peer identifier exchange is well formed and
the transport stays open, and the remote peer identifier and extension mask
it advertises. -/
structure AcceptInput where
  remotePlain : Bool
  infoHashOK : Bool
  wellFormed : Bool
  remotePeerID : PeerID
  remoteExtensions : ExtMask
deriving DecidableEq, Repr

/-- Modelled from the spec: btconn.Accept (internal/btconn, not under
src/), the Handshake Negotiator in responder mode.  It fails with a
HandshakeError when a configured mandatory-encryption policy is violated by
the remote side, when the content identifier is unrecognized or
unauthorized, or when the exchange malforms or the transport closes
mid-handshake; otherwise it yields the remote peer identifier and remote
extension mask. -/
def btconnAccept (encryptionForceIncoming : Bool) (inp : AcceptInput) :
    Except HandshakeError (PeerID × ExtMask) :=
  if inp.remotePlain = true ∧ encryptionForceIncoming = true then
    .error .policyViolation
  else if inp.infoHashOK = false then
    .error .unauthorizedInfoHash
  else if inp.wellFormed = false then
    .error .malformed
  else
    .ok (inp.remotePeerID, inp.remoteExtensions)

inductive RegOp where
  | addOk : PeerID → RegOp
  | addDup : PeerID → RegOp
  | remove : PeerID → RegOp
deriving DecidableEq, Repr

/-- What one run of the inbound handler did: the sequence of registry
operations it performed, whether a peer session was started and with which
effective extension mask, whether the handler itself closed the socket, and
the final registry contents. -/
structure HandlerOutcome where
  regOps : List RegOp
  sessionStarted : Bool
  sessionExtensions : Option ExtMask
  connClosedByHandler : Bool
  finalReg : PeerIDs
deriving DecidableEq, Repr

/-- Handler.Run (handler.go lines 37-69), with the local
encryptionForceIncoming variable lifted to a parameter.  On handshake error
it closes the socket and returns; on a duplicate peer (Add = false) it
closes the socket and returns without Remove; on success it defers Remove,
computes the effective mask as ourbf.And(peerbf), runs the session, and the
deferred Remove fires when the session returns. -/
def handlerRunWith (encryptionForceIncoming : Bool) (inp : AcceptInput)
    (reg : PeerIDs) : HandlerOutcome :=
  match btconnAccept encryptionForceIncoming inp with
  | .error _ =>
      { regOps := [], sessionStarted := false, sessionExtensions := none,
        connClosedByHandler := true, finalReg := reg }
  | .ok (peerID, peerExtensions) =>
      let res := PeerIDs.add reg peerID
      if res.1 = false then
        { regOps := [RegOp.addDup peerID], sessionStarted := false,
          sessionExtensions := none, connClosedByHandler := true,
          finalReg := res.2 }
      else
        { regOps := [RegOp.addOk peerID, RegOp.remove peerID],
          sessionStarted := true,
          sessionExtensions := some (ExtMask.and ourExtensions peerExtensions),
          connClosedByHandler := false,
          finalReg := PeerIDs.remove res.2 peerID }

/-- Handler.Run as written in the source: encryptionForceIncoming is
hardcoded to false (handler.go line 41, a TODO to read it from config). -/
def handlerRun (inp : AcceptInput) (reg : PeerIDs) : HandlerOutcome :=
  handlerRunWith false inp reg

/-- Count how many times a given registry operation occurs in a run. -/
def countRegOp (ops : List RegOp) (op : RegOp) : Nat := ops.count op

theorem PeerIDs.remove_cons_self (reg : PeerIDs) (id : PeerID) (h : id ∉ reg) :
    PeerIDs.remove (id :: reg) id = reg := by
  simp only [PeerIDs.remove, List.filter_cons]
  simp only [ne_eq, not_true_eq_false]
  simp only [decide_False, Bool.false_eq_true, if_false]
  exact List.filter_eq_self.2 (fun a ha => by
    simp only [ne_eq, decide_eq_true_eq]
    exact fun he => h (he ▸ ha))

/-- C3: for every inbound connection whose handshake succeeds, if the
registry add of the remote peer identifier returns false the handler closes
the socket and terminates with no session and no remove of that identifier;
if add returns true, remove of that identifier runs exactly once on the
session exit path, and the registry is restored, leaving no
registered-but-dead identity behind. -/
theorem handler_registry_discipline (inp : AcceptInput) (reg : PeerIDs)
    (peerID : PeerID) (peerExtensions : ExtMask)
    (h : btconnAccept false inp = .ok (peerID, peerExtensions)) :
    (peerID ∈ reg →
      handlerRun inp reg =
        { regOps := [RegOp.addDup peerID], sessionStarted := false,
          sessionExtensions := none, connClosedByHandler := true,
          finalReg := reg } ∧
      countRegOp (handlerRun inp reg).regOps (RegOp.remove peerID) = 0) ∧
    (peerID ∉ reg →
      (handlerRun inp reg).sessionStarted = true ∧
      countRegOp (handlerRun inp reg).regOps (RegOp.remove peerID) = 1 ∧
      (handlerRun inp reg).finalReg = reg) := by
  constructor
  · intro hmem
    have hrun : handlerRun inp reg =
        { regOps := [RegOp.addDup peerID], sessionStarted := false,
          sessionExtensions := none, connClosedByHandler := true,
          finalReg := reg } := by
      simp [handlerRun, handlerRunWith, h, PeerIDs.add, hmem]
    refine ⟨hrun, ?_⟩
    rw [hrun]
    simp [countRegOp]
  · intro hmem
    have hrun : handlerRun inp reg =
        { regOps := [RegOp.addOk peerID, RegOp.remove peerID],
          sessionStarted := true,
          sessionExtensions := some (ExtMask.and ourExtensions peerExtensions),
          connClosedByHandler := false,
          finalReg := PeerIDs.remove (peerID :: reg) peerID } := by
      simp [handlerRun, handlerRunWith, h, PeerIDs.add, hmem]
    rw [hrun]
    refine ⟨rfl, ?_, ?_⟩
    · simp [countRegOp]
    · exact PeerIDs.remove_cons_self reg peerID hmem

theorem handler_registry_discipline_witness :
    btconnAccept false
        { remotePlain := false, infoHashOK := true, wellFormed := true,
          remotePeerID := [7], remoteExtensions := 0 } = .ok ([7], 0) ∧
    (([7] : PeerID) ∉ ([] : PeerIDs) →
      (handlerRun
          { remotePlain := false, infoHashOK := true, wellFormed := true,
            remotePeerID := [7], remoteExtensions := 0 } []).sessionStarted = true ∧
      countRegOp (handlerRun
          { remotePlain := false, infoHashOK := true, wellFormed := true,
            remotePeerID := [7], remoteExtensions := 0 } []).regOps
          (RegOp.remove [7]) = 1 ∧
      (handlerRun
          { remotePlain := false, infoHashOK := true, wellFormed := true,
            remotePeerID := [7], remoteExtensions := 0 } []).finalReg = []) := by
  refine ⟨rfl, ?_⟩
  exact (handler_registry_discipline
    { remotePlain := false, infoHashOK := true, wellFormed := true,
      remotePeerID := [7], remoteExtensions := 0 } [] [7] 0 rfl).2

/-- C4: whenever an inbound handshake succeeds and a peer session starts,
the effective extension mask handed to the session is the bitwise AND of
the local advertised mask and the remote advertised mask — a bit is set in
the effective mask exactly when both sides set it, so the result is the
intersection and never the union of the two capability sets. -/
theorem handler_effective_extensions_and (inp : AcceptInput) (reg : PeerIDs)
    (h : (handlerRun inp reg).sessionStarted = true) :
    (handlerRun inp reg).sessionExtensions =
      some (ExtMask.and ourExtensions inp.remoteExtensions) ∧
    (∀ i, ExtMask.test (ExtMask.and ourExtensions inp.remoteExtensions) i =
      (ExtMask.test ourExtensions i && ExtMask.test inp.remoteExtensions i)) := by
  refine ⟨?_, fun i => Nat.testBit_land ourExtensions inp.remoteExtensions i⟩
  obtain ⟨rp, ihOK, wf, pid, ext⟩ := inp
  by_cases hmem : pid ∈ reg <;>
    cases ihOK <;> cases wf <;>
    simp [handlerRun, handlerRunWith, btconnAccept, PeerIDs.add, hmem] at h ⊢

theorem handler_effective_extensions_and_witness :
    (handlerRun
        { remotePlain := false, infoHashOK := true, wellFormed := true,
          remotePeerID := [7], remoteExtensions := 2 ^ 61 + 2 ^ 5 }
        []).sessionStarted = true ∧
    (handlerRun
        { remotePlain := false, infoHashOK := true, wellFormed := true,
          remotePeerID := [7], remoteExtensions := 2 ^ 61 + 2 ^ 5 }
        []).sessionExtensions = some (2 ^ 61) ∧
    ExtMask.and ourExtensions (2 ^ 61 + 2 ^ 5) = 2 ^ 61 := by
  have h := handler_effective_extensions_and
    { remotePlain := false, infoHashOK := true, wellFormed := true,
      remotePeerID := [7], remoteExtensions := 2 ^ 61 + 2 ^ 5 }
    [] (by decide)
  refine ⟨by decide, ?_, by decide⟩
  rw [h.1]
  decide

/-- C5: the responder-mode handshake honors the local mandatory-encryption
policy flag that Handler.Run passes to it: whenever that policy is
configured (flag true) and the remote side attempts plain framing, the
handshake fails with the policy-violation HandshakeError, the handler
closes the socket, and no peer session is started. -/
theorem handler_force_encryption_policy (inp : AcceptInput) (reg : PeerIDs)
    (h : inp.remotePlain = true) :
    btconnAccept true inp = .error .policyViolation ∧
    (handlerRunWith true inp reg).connClosedByHandler = true ∧
    (handlerRunWith true inp reg).sessionStarted = false := by
  have hacc : btconnAccept true inp = .error .policyViolation := by
    unfold btconnAccept
    rw [if_pos ⟨h, rfl⟩]
  refine ⟨hacc, ?_, ?_⟩ <;> simp [handlerRunWith, hacc]

theorem handler_force_encryption_policy_witness :
    btconnAccept true
        { remotePlain := true, infoHashOK := true, wellFormed := true,
          remotePeerID := [7], remoteExtensions := 0 } =
      .error .policyViolation ∧
    (handlerRunWith true
        { remotePlain := true, infoHashOK := true, wellFormed := true,
          remotePeerID := [7], remoteExtensions := 0 }
        []).connClosedByHandler = true ∧
    (handlerRunWith true
        { remotePlain := true, infoHashOK := true, wellFormed := true,
          remotePeerID := [7], remoteExtensions := 0 }
        []).sessionStarted = false :=
  handler_force_encryption_policy
    { remotePlain := true, infoHashOK := true, wellFormed := true,
      remotePeerID := [7], remoteExtensions := 0 } [] rfl

/-! ## Transfer run loop (dialer.go, transfer.Run)

transfer.Run registers the transfer in the process-wide tables, then starts
the periodic tracker announce exactly once, with event Completed if
t.bitField.All() and Started otherwise, starts the downloader and uploader,
and enters an event loop that only handles announce responses (log error or
forward peers) and peerHave notifications (append to the per-piece peer list
and non-blocking wake-up of the downloader); the loop never starts another
announce and never revisits the initial event choice.
-/

/-- Modelled from the spec: the CompletionBitfield (internal/bitfield, not
under src/) is a per-transfer bit vector, one bit per piece; All is
all-bits-set. -/
abbrev BitField := List Bool

/-- Modelled from the spec: bitfield All, true when every bit is set. -/
def BitField.allSet (bf : BitField) : Bool := bf.all (fun b => b)

inductive TrackerEvent where
  | started : TrackerEvent
  | completed : TrackerEvent
deriving DecidableEq, Repr

/-- The events the transfer event loop selects between: a tracker announce
response (carrying an error flag and a peer list) and a peer-has-piece
notification. -/
inductive TransferEvent where
  | announceResponse : Bool → List Nat → TransferEvent
  | peerHave : Nat → Nat → TransferEvent
deriving DecidableEq, Repr

structure TransferState where
  announceLoopsStarted : List TrackerEvent
  piecePeers : List (Nat × Nat)
  downloaderPeersSent : List (List Nat)
  haveNotifyPending : Bool
  errorsLogged : Nat
deriving DecidableEq, Repr

/-- One iteration of the transfer.Run event loop (dialer.go lines 172-192):
an announce response with an error is logged and the loop continues; a
successful one forwards the peer list to the downloader; a peerHave appends
the reporting peer to the interested-peer list of that piece and performs a
non-blocking send on the downloader have-notification channel, which
leaves at most one wake-up pending.  No branch starts an announce loop. -/
def transferLoopStep (s : TransferState) (e : TransferEvent) : TransferState :=
  match e with
  | .announceResponse true _ => { s with errorsLogged := s.errorsLogged + 1 }
  | .announceResponse false peers =>
      { s with downloaderPeersSent := s.downloaderPeersSent ++ [peers] }
  | .peerHave pieceIdx peerId =>
      { s with piecePeers := s.piecePeers ++ [(pieceIdx, peerId)],
               haveNotifyPending := true }

/-- transfer.Run before the event loop (dialer.go lines 159-164): start the
announce loop once, with Completed if the bitfield is full at that moment
and Started otherwise. -/
def transferInitState (bf : BitField) : TransferState :=
  { announceLoopsStarted :=
      [if BitField.allSet bf then TrackerEvent.completed else TrackerEvent.started],
    piecePeers := [], downloaderPeersSent := [],
    haveNotifyPending := false, errorsLogged := 0 }

/-- transfer.Run over a finite prefix of loop events. -/
def transferRun (bf : BitField) (events : List TransferEvent) : TransferState :=
  events.foldl transferLoopStep (transferInitState bf)

theorem transferLoopStep_announces (s : TransferState) (e : TransferEvent) :
    (transferLoopStep s e).announceLoopsStarted = s.announceLoopsStarted := by
  cases e with
  | announceResponse err peers => cases err <;> rfl
  | peerHave pieceIdx peerId => rfl

theorem transferFold_announces (events : List TransferEvent) (s : TransferState) :
    (events.foldl transferLoopStep s).announceLoopsStarted = s.announceLoopsStarted := by
  induction events generalizing s with
  | nil => rfl
  | cons e es ih => rw [List.foldl_cons, ih, transferLoopStep_announces]

/-- C6: when the transfer run loop starts, exactly one tracker announce
loop is started, with initial event Completed if the completion bitfield
has every bit set at that moment and Started otherwise; no later iteration
of the event loop starts another announce or revisits that choice. -/
theorem transfer_initial_announce_event (bf : BitField) (events : List TransferEvent) :
    (transferRun bf events).announceLoopsStarted =
      [if BitField.allSet bf then TrackerEvent.completed else TrackerEvent.started] := by
  unfold transferRun
  rw [transferFold_announces]
  rfl

/-! ## Outbound connect (dialer.go, transfer.connect)

transfer.connect dials an address; on error it logs at Debug level when the
error is connection.ErrOwnConnection and at Error level otherwise, then
returns; on success it defers closing the connection and serves the peer.
-/

inductive DialOutcome where
  | ownConnection : DialOutcome
  | handshakeFailed : DialOutcome
  | ok : DialOutcome
deriving DecidableEq, Repr

/-- Modelled from the spec: connection.Dial (internal/connection, not under
src/), the Handshake Negotiator in initiator mode.  An initiator that
discovers the remote peer identifier equals its own local peer identifier
closes the connection and reports ErrOwnConnection; other handshake
failures also close the connection and report an error; otherwise the
secured connection and the remote extension mask are returned. -/
def connectionDial (localPeerID remotePeerID : PeerID) (transportFails : Bool)
    (remoteExt : ExtMask) : Except DialOutcome ExtMask :=
  if transportFails then .error .handshakeFailed
  else if remotePeerID = localPeerID then .error .ownConnection
  else .ok remoteExt

/-- What one call of transfer.connect did. -/
structure ConnectOutcome where
  sessionStarted : Bool
  errorLogged : Bool
  debugLogged : Bool
  connClosed : Bool
deriving DecidableEq, Repr

/-- transfer.connect (dialer.go lines 195-210): on ErrOwnConnection log at
Debug and return; on any other dial error log at Error and return; on
success defer conn.Close and serve the peer session. -/
def transferConnect (localPeerID remotePeerID : PeerID) (transportFails : Bool)
    (remoteExt : ExtMask) : ConnectOutcome :=
  match connectionDial localPeerID remotePeerID transportFails remoteExt with
  | .error .ownConnection =>
      { sessionStarted := false, errorLogged := false, debugLogged := true,
        connClosed := true }
  | .error _ =>
      { sessionStarted := false, errorLogged := true, debugLogged := false,
        connClosed := true }
  | .ok _ =>
      { sessionStarted := true, errorLogged := false, debugLogged := false,
        connClosed := true }

/-- C7: an outbound dial attempt that reaches the peer-identifier exchange
and finds the remote peer identifier equal to the local one closes the
connection and returns without starting a peer session and without logging
or reporting the condition as an error or failure (only a debug-level
trace). -/
theorem connect_self_connection_benign (id : PeerID) (remoteExt : ExtMask) :
    connectionDial id id false remoteExt = .error .ownConnection ∧
    transferConnect id id false remoteExt =
      { sessionStarted := false, errorLogged := false, debugLogged := true,
        connClosed := true } := by
  have hdial : connectionDial id id false remoteExt = .error .ownConnection := by
    unfold connectionDial
    rw [if_neg (by simp), if_pos rfl]
  exact ⟨hdial, by unfold transferConnect; rw [hdial]⟩

/-! ## File preparer (dialer.go, openOrAllocate and prepareFiles)

openOrAllocate opens the path with O_RDWR|O_CREATE (so a missing file is
created with size 0), stats it, and then:

  if fi.Size() == 0 && length != 0 \x7b truncate to length; sync \x7d
  else \x7b if fi.Size() != length \x7b error \x7d ; exists = true \x7d

prepareFiles runs openOrAllocate for each declared file, aborting on the
first error, and sets checkHash when any file reported exists.
-/

/-- The result of openOrAllocate: either the opened file with its final
size, the exists flag, and whether it was truncated and synced, or the
size-mismatch error carrying the expected and actual sizes. -/
inductive AllocResult where
  | ok : Int → Bool → Bool → Bool → AllocResult
  | sizeMismatch : Int → Int → AllocResult
deriving DecidableEq, Repr

/-- openOrAllocate (dialer.go lines 248-281) after the open and stat have
succeeded, as a function of the stat-reported size and the declared length.
The decision uses only the current size: size 0 with nonzero declared
length means truncate to the length, sync, and leave exists false; any
other size must equal the declared length exactly or the call fails; on an
exact match exists is set. -/
def openOrAllocate (curSize length : Int) : AllocResult :=
  if curSize = 0 ∧ length ≠ 0 then .ok length false true true
  else if curSize ≠ length then .sizeMismatch length curSize
  else .ok curSize true false false

/-- openOrAllocate seen from the file system: opening with O_CREATE yields
a file whose size is the pre-existing size if the path existed and 0 if it
was just created. -/
def openOrAllocateFS (existedBefore : Bool) (preSize length : Int) : AllocResult :=
  openOrAllocate (if existedBefore then preSize else 0) length

/-- One declared file as prepareFiles sees it: whether its path already
existed, its on-disk size when it did, and its declared length. -/
structure FileDecl where
  existedBefore : Bool
  preSize : Int
  length : Int
deriving DecidableEq, Repr

/-- prepareFiles (dialer.go lines 212-246), uniformly over the single-file
and multi-file layouts: open or allocate each declared file, abort on the
first size mismatch, and require a hash check when any file reported
exists. -/
def prepareFiles (fs : List FileDecl) : Except (Int × Int) (List (Int × Bool) × Bool) :=
  match fs with
  | [] => .ok ([], false)
  | f :: rest =>
      match openOrAllocateFS f.existedBefore f.preSize f.length with
      | .sizeMismatch expected actual => .error (expected, actual)
      | .ok sz ex _ _ =>
          match prepareFiles rest with
          | .error e => .error e
          | .ok (others, checkHash) => .ok ((sz, ex) :: others, checkHash || ex)

/-- C8, counterexample: a pre-existing file of size 0 with declared length
1000 has a size different from its declared length, yet the File Preparer
does not fail with a SizeMismatchError — it takes the allocation branch,
truncates the file to 1000, and returns exists=false. -/
theorem openOrAllocate_preexisting_empty_no_error :
    openOrAllocateFS true 0 1000 = .ok 1000 false true true ∧
    prepareFiles [{ existedBefore := true, preSize := 0, length := 1000 }] =
      .ok ([(1000, false)], false) := by
  exact ⟨rfl, rfl⟩

/-- C8, amended: a pre-existing file of nonzero size different from the
declared length (for example size 900 against declared length 1000) makes
the File Preparer fail with a SizeMismatchError, as does a pre-existing
nonempty file when the declared length is 0; when the pre-existing size
matches the declared length exactly the call succeeds with exists=true and
prepareFiles requires a hash check.  A pre-existing empty file with nonzero
declared length is the exception: it is treated as newly created. -/
theorem openOrAllocate_size_mismatch (preSize length : Int)
    (hnz : preSize ≠ 0) (hne : preSize ≠ length) :
    openOrAllocateFS true preSize length = .sizeMismatch length preSize ∧
    prepareFiles [{ existedBefore := true, preSize := preSize, length := length }] =
      .error (length, preSize) ∧
    openOrAllocateFS true length length = .ok length true false false ∧
    prepareFiles [{ existedBefore := true, preSize := length, length := length }] =
      .ok ([(length, true)], true) := by
  have hsz : (if (true : Bool) = true then preSize else 0) = preSize := by simp
  have hsz2 : (if (true : Bool) = true then length else 0) = length := by simp
  have hmain : openOrAllocateFS true preSize length = .sizeMismatch length preSize := by
    unfold openOrAllocateFS
    rw [hsz]
    unfold openOrAllocate
    rw [if_neg (by rintro ⟨h0, _⟩; exact hnz h0), if_pos hne]
  have hmatch : openOrAllocateFS true length length = .ok length true false false := by
    unfold openOrAllocateFS
    rw [hsz2]
    unfold openOrAllocate
    rw [if_neg (by rintro ⟨h0, hl⟩; exact hl h0), if_neg (by simp)]
  refine ⟨hmain, ?_, hmatch, ?_⟩
  · unfold prepareFiles
    simp only [hmain]
  · unfold prepareFiles
    simp only [hmatch]
    rfl

theorem openOrAllocate_size_mismatch_witness :
    (900 : Int) ≠ 0 ∧ (900 : Int) ≠ 1000 ∧
    openOrAllocateFS true 900 1000 = .sizeMismatch 1000 900 ∧
    prepareFiles [{ existedBefore := true, preSize := 900, length := 1000 }] =
      .error (1000, 900) := by
  have h := openOrAllocate_size_mismatch 900 1000 (by decide) (by decide)
  exact ⟨by decide, by decide, h.1, h.2.1⟩

/-- C9: a declared file whose path does not yet exist and whose declared
length is nonzero is created with size 0, truncated to exactly the declared
length, flushed to durable storage, and reported with exists=false, so it
does not make prepareFiles require a hash check. -/
theorem openOrAllocate_fresh_allocates (preSize length : Int) (h : length ≠ 0) :
    openOrAllocateFS false preSize length = .ok length false true true ∧
    prepareFiles [{ existedBefore := false, preSize := preSize, length := length }] =
      .ok ([(length, false)], false) := by
  have hsz : (if (false : Bool) = true then preSize else 0) = (0 : Int) := by simp
  have hmain : openOrAllocateFS false preSize length = .ok length false true true := by
    unfold openOrAllocateFS
    rw [hsz]
    unfold openOrAllocate
    rw [if_pos ⟨rfl, h⟩]
  refine ⟨hmain, ?_⟩
  unfold prepareFiles
  simp only [hmain]
  rfl

theorem openOrAllocate_fresh_allocates_witness :
    (1000 : Int) ≠ 0 ∧
    openOrAllocateFS false 0 1000 = .ok 1000 false true true ∧
    prepareFiles [{ existedBefore := false, preSize := 0, length := 1000 }] =
      .ok ([(1000, false)], false) := by
  have h := openOrAllocate_fresh_allocates 0 1000 (by decide)
  exact ⟨by decide, h.1, h.2⟩

/-- C10: openOrAllocate distinguishes newly created from pre-existing
solely by the current size.  Any file of size 0 with nonzero declared
length — including a genuinely pre-existing empty file — is truncated to
the declared length and reported exists=false, triggering no hash check;
any file whose post-open size equals its declared length — including a file
just created when the declared length is 0 — is reported exists=true, which
makes prepareFiles require a hash check. -/
theorem openOrAllocate_size_heuristic (existedBefore : Bool) (preSize length : Int) :
    (length ≠ 0 →
      openOrAllocateFS true 0 length = .ok length false true true ∧
      prepareFiles [{ existedBefore := true, preSize := 0, length := length }] =
        .ok ([(length, false)], false)) ∧
    ((if existedBefore then preSize else 0) = length →
      openOrAllocate (if existedBefore then preSize else 0) length =
        .ok length true false false ∧
      prepareFiles [{ existedBefore := existedBefore, preSize := preSize,
                      length := length }] = .ok ([(length, true)], true)) ∧
    (openOrAllocateFS false preSize 0 = .ok 0 true false false ∧
      prepareFiles [{ existedBefore := false, preSize := preSize, length := 0 }] =
        .ok ([(0, true)], true)) := by
  refine ⟨?_, ?_, ?_⟩
  · intro h
    have hsz : (if (true : Bool) = true then (0 : Int) else 0) = (0 : Int) := by simp
    have hmain : openOrAllocateFS true 0 length = .ok length false true true := by
      unfold openOrAllocateFS
      rw [hsz]
      unfold openOrAllocate
      rw [if_pos ⟨rfl, h⟩]
    refine ⟨hmain, ?_⟩
    unfold prepareFiles
    simp only [hmain]
    rfl
  · intro h
    have hmain : openOrAllocate (if existedBefore then preSize else 0) length =
        .ok length true false false := by
      unfold openOrAllocate
      rw [h]
      rw [if_neg (by rintro ⟨h0, hl⟩; exact hl h0), if_neg (by simp)]
    refine ⟨hmain, ?_⟩
    unfold prepareFiles
    show (match openOrAllocateFS existedBefore preSize length with
      | .sizeMismatch expected actual => Except.error (expected, actual)
      | .ok sz ex _ _ =>
          match prepareFiles [] with
          | .error e => Except.error e
          | .ok (others, checkHash) => Except.ok ((sz, ex) :: others, checkHash || ex)) =
      Except.ok ([(length, true)], true)
    unfold openOrAllocateFS
    rw [hmain]
    rfl
  · have hsz : (if (false : Bool) = true then preSize else 0) = (0 : Int) := by simp
    have hmain : openOrAllocateFS false preSize 0 = .ok 0 true false false := by
      unfold openOrAllocateFS
      rw [hsz]
      unfold openOrAllocate
      rw [if_neg (by rintro ⟨h0, hl⟩; exact hl rfl), if_neg (by simp)]
    refine ⟨hmain, ?_⟩
    unfold prepareFiles
    simp only [hmain]
    rfl

theorem openOrAllocate_size_heuristic_witness :
    ((1000 : Int) ≠ 0 ∧
      openOrAllocateFS true 0 1000 = .ok 1000 false true true) ∧
    ((if true then (512 : Int) else 0) = 512 ∧
      prepareFiles [{ existedBefore := true, preSize := 512, length := 512 }] =
        .ok ([(512, true)], true)) := by
  have h := openOrAllocate_size_heuristic true 512 1000
  have h2 := openOrAllocate_size_heuristic true 512 512
  exact ⟨⟨by decide, (h.1 (by decide)).1⟩, ⟨by decide, (h2.2.1 (by decide)).2⟩⟩

end Rain
